import Mathlib

/-!
Verification of the seymourlib RS232 protocol codec and client coordinator.

This file gives a shallow embedding of `src/seymourlib/protocol.py`,
`src/seymourlib/client.py` and the concurrency discipline of the operation
path, and proves/refutes the frozen specification claims against it.

Modelling conventions:
- Python byte strings (all ASCII on this wire) are `List Char`.
- Python `float` wire fields are modelled as exact rationals `ℚ`; every
  numeric value appearing in the claims (25.5, 75.0, -10.0, ...) is exactly
  representable, so the model agrees with IEEE semantics on them.
- Fallible Python code (functions that `raise ValueError`) returns `Except`.
- The regexes of protocol.py are compiled with `re.compile` (no flags) and
  used with `.match` / `.fullmatch`.  All response regexes are anchored
  `^...\]$`; in Python, `$` matches at the end of the input or just before
  one final newline, and no element of any of these patterns can match a
  newline, so `pattern.match(raw)` succeeds exactly when the input with at
  most one trailing newline stripped matches the pattern exactly.  Each
  decoder below is therefore written as a total function of
  `stripTrailingNewline raw`.
-/

deriving instance DecidableEq for Except

namespace Seymour

/-- Numeric value of an ASCII digit character. -/
def digitVal (c : Char) : ℕ := c.toNat - 48

/-- Embedding of `natOfDigits l` is the number denoted by a list of ASCII digits
(most significant first), the value Python's `int()` gives on them. -/
def natOfDigits (l : List Char) : ℕ := l.foldl (fun a c => 10 * a + digitVal c) 0

/-- Characters Python's `str.strip()` removes at either end (ASCII range). -/
def isPySpace (c : Char) : Bool :=
  c = ' ' || c = '\t' || c = '\n' || c = '\x0d' || c = '\x0b' || c = '\x0c'

/-- Python `str.strip()` on ASCII text. -/
def pyStrip (l : List Char) : List Char :=
  ((l.dropWhile isPySpace).reverse.dropWhile isPySpace).reverse

/-- Python `float()` on a string drawn from the wire alphabet
`[0-9.\-]` : an optional leading minus sign, then digits containing at
most one decimal point and at least one digit.  Returns the exact decimal
value; `none` models `float()` raising `ValueError`. -/
def pyFloat? (s : List Char) : Option ℚ :=
  let (neg, body) : Bool × List Char :=
    match s with
    | '-' :: rest => (true, rest)
    | _ => (false, s)
  let intPart := body.takeWhile Char.isDigit
  let rest := body.dropWhile Char.isDigit
  -- ±(intPart.fracPart) as an exact rational: the digits glued together
  -- over 10^(number of fractional digits).
  let signed : ℕ → ℤ := fun n => if neg then -(n : ℤ) else (n : ℤ)
  match rest with
  | [] =>
      if intPart.isEmpty then none
      else some (mkRat (signed (natOfDigits intPart)) 1)
  | '.' :: fracPart =>
      if fracPart.all Char.isDigit then
        if intPart.isEmpty && fracPart.isEmpty then none
        else some (mkRat (signed (natOfDigits (intPart ++ fracPart)))
          (10 ^ fracPart.length))
      else none
  | _ => none

/-- Python's `$` anchor semantics folded into the input: remove at most one
trailing newline (see the header comment). -/
def stripTrailingNewline (s : List Char) : List Char :=
  if s.getLast? = some '\n' then s.dropLast else s

/-! ### Protocol data model (protocol.py) -/

/-- Embedding of `MotorID` enum: `T,B,L,R,V,H,A`. -/
inductive MotorID
  | top
  | bottom
  | left
  | right
  | vertical
  | horizontal
  | all
deriving DecidableEq

/-- The single-byte wire code of a `MotorID` (its `StrEnum` value). -/
def MotorID.code : MotorID → Char
  | .top => 'T'
  | .bottom => 'B'
  | .left => 'L'
  | .right => 'R'
  | .vertical => 'V'
  | .horizontal => 'H'
  | .all => 'A'

/-- Embedding of `MotorID(c)`: the enum member with wire code `c`, if any. -/
def MotorID.ofChar? : Char → Option MotorID
  | 'T' => some .top
  | 'B' => some .bottom
  | 'L' => some .left
  | 'R' => some .right
  | 'V' => some .vertical
  | 'H' => some .horizontal
  | 'A' => some .all
  | _ => none

/-- Embedding of `StatusCode` enum: `P,M,H,A,C,O,I,E`. -/
inductive StatusCode
  | stoppedAtRatio
  | movingToRatio
  | halted
  | homing
  | calibrating
  | movingOutward
  | movingInward
  | error
deriving DecidableEq

/-- Embedding of `StatusCode(c)`: the enum member with wire code `c`, if any.  The
character class of `StatusCode.regex()` accepts exactly these codes. -/
def StatusCode.ofChar? : Char → Option StatusCode
  | 'P' => some .stoppedAtRatio
  | 'M' => some .movingToRatio
  | 'H' => some .halted
  | 'A' => some .homing
  | 'C' => some .calibrating
  | 'O' => some .movingOutward
  | 'I' => some .movingInward
  | 'E' => some .error
  | _ => none

/-- Embedding of `Ratio`: frozen attrs value type holding a 3-digit id string. -/
structure Ratio where
  id : List Char
deriving DecidableEq

/-- The two messages of `Ratio`'s attrs validator. -/
inductive RatioError
  | wrongLength   -- "ratio_id must be three digits long"
  | notNumeric    -- "ratio_id must be numeric"
deriving DecidableEq

/-- Validated construction `Ratio(value)`: the attrs `@id.validator` runs
`len(value) != 3` then `not value.isdigit()`.  On ASCII strings Python's
`str.isdigit` coincides with the per-character ASCII digit test. -/
def Ratio.make (value : List Char) : Except RatioError Ratio :=
  if value.length ≠ 3 then .error .wrongLength
  else if !value.all Char.isDigit then .error .notNumeric
  else .ok ⟨value⟩

/-- Embedding of `MaskStatus`: status code plus optional ratio. -/
structure MaskStatus where
  code : StatusCode
  ratio : Option Ratio
deriving DecidableEq

/-- Embedding of `MaskPosition`: a motor paired with a position percentage. -/
structure MaskPosition where
  motor_id : MotorID
  position_pct : ℚ
deriving DecidableEq

/-- Embedding of `Serial`: structured serial number. -/
structure Serial where
  model_code : List Char
  month : ℕ
  year : ℕ
  production_number : List Char
deriving DecidableEq

/-- One error value standing for every distinct `raise ValueError` site of
the decoders in protocol.py. -/
inductive DecodeError
  | malformedStatus         -- "Malformed status response"
  | malformedPositions      -- "Malformed positions response"
  | malformedEntries        -- "Malformed motor position entries"
  | malformedSystemInfo     -- "Malformed system info response"
  | malformedSerial         -- "Malformed serial number"
  | malformedSettings       -- "Malformed settings response"
  | lengthMismatch (num_ratios expected_len got : ℕ)
      -- "Expected {num_ratios} ratio entries of length {expected}, got total length {got}"
  | malformedEntry          -- "Malformed ratio setting entry"
  | badFloat                -- ValueError escaping float() on a matched field
deriving DecidableEq

/-- Python's 2-digit zero-padded decimal format `f"{n:02d}"`. -/
def format02 (n : ℕ) : List Char :=
  if n < 10 then ['0', Nat.digitChar n] else Nat.toDigits 10 n

/-- Embedding of `Serial.to_serial_number`:
`f"{model_code}-{month:02d}{year:02d}-{production_number}"`. -/
def Serial.to_serial_number (s : Serial) : List Char :=
  s.model_code ++ ['-'] ++ format02 s.month ++ format02 s.year ++ ['-']
    ++ s.production_number

/-- Embedding of `Serial.from_serial_number`: `fullmatch` of
`(?P<model_code>.{2})-(?P<month>[0-9]{2})(?P<year>[0-9]{2})-(?P<production_number>.{5})`.
`.` does not match `\n`; everything is fixed width. -/
def Serial.from_serial_number (s : List Char) : Except DecodeError Serial :=
  match s with
  | [a, b, '-', m1, m2, y1, y2, '-', p1, p2, p3, p4, p5] =>
      if a ≠ '\n' && b ≠ '\n' && m1.isDigit && m2.isDigit && y1.isDigit
          && y2.isDigit && p1 ≠ '\n' && p2 ≠ '\n' && p3 ≠ '\n' && p4 ≠ '\n'
          && p5 ≠ '\n' then
        .ok { model_code := [a, b]
              month := 10 * digitVal m1 + digitVal m2
              year := 10 * digitVal y1 + digitVal y2
              production_number := [p1, p2, p3, p4, p5] }
      else .error .malformedSerial
  | _ => .error .malformedSerial

/-! ### decode_status -/

/-- Body of `decode_status` after the `$`-anchor newline handling:
`_STATUS_RE = ^\[01(?P<StatusCode>[PMHACOIE])(?P<Ratio>[0-9]{3})?\]$`. -/
def statusOfStripped : List Char → Except DecodeError MaskStatus
  | '[' :: '0' :: '1' :: c :: rest =>
      match StatusCode.ofChar? c with
      | none => .error .malformedStatus
      | some code =>
          match rest with
          | [']'] => .ok ⟨code, none⟩
          | [d1, d2, d3, ']'] =>
              if d1.isDigit && d2.isDigit && d3.isDigit then
                .ok ⟨code, some ⟨[d1, d2, d3]⟩⟩
              else .error .malformedStatus
          | _ => .error .malformedStatus
  | _ => .error .malformedStatus

/-- Embedding of `decode_status(raw)`. -/
def decode_status (raw : List Char) : Except DecodeError MaskStatus :=
  statusOfStripped (stripTrailingNewline raw)

/-! ### decode_positions -/

/-- The character class `_ASCII_PCT_RE = [0-9.\-]`. -/
def pctClass (c : Char) : Bool := c.isDigit || c = '.' || c = '-'

/-- One 5-byte positions entry `(?P<MotorIDi>[TBLRVHA])([0-9.\-]{4})`
checked structurally (the `re.fullmatch` part, before `float()`). -/
def positionsChunkOK (ch : List Char) : Bool :=
  match ch with
  | m :: ps => (MotorID.ofChar? m).isSome && ps.length = 4 && ps.all pctClass
  | [] => false

/-- The `n` consecutive width-`w` slices of `l`. -/
def chunksOf (w n : ℕ) (l : List Char) : List (List Char) :=
  (List.range n).map fun i => (l.drop (w * i)).take w

/-- Embedding of `re.fullmatch` of the concatenated per-motor pattern against the
entries group: `n` entries, each one motor code plus 4 bytes of `[0-9.\-]`.
All widths are fixed, so the match is equivalent to a length check plus
per-chunk checks. -/
def positionsEntriesMatch (n : ℕ) (entries : List Char) : Bool :=
  entries.length = 5 * n && (chunksOf 5 n entries).all positionsChunkOK

/-- The `float(position_str)` conversion of one matched entry, performed
in wire order after the fullmatch succeeded; a `float()` failure raises. -/
def positionOfChunk (ch : List Char) : Except DecodeError MaskPosition :=
  match ch with
  | m :: ps =>
      match MotorID.ofChar? m, pyFloat? ps with
      | some motor, some q => .ok ⟨motor, q⟩
      | some _, none => .error .badFloat
      | none, _ => .error .malformedEntries
  | [] => .error .malformedEntries

/-- Convert every chunk left to right, stopping at the first failure,
exactly as the `for i in range(num_motors)` loop does. -/
def positionsOfChunks : List (List Char) → Except DecodeError (List MaskPosition)
  | [] => .ok []
  | ch :: rest =>
      match positionOfChunk ch with
      | .error e => .error e
      | .ok p =>
          match positionsOfChunks rest with
          | .error e => .error e
          | .ok ps => .ok (p :: ps)

/-- Body of `decode_positions` after the `$`-anchor newline handling:
`_POSITIONS_RE = ^\[01(?P<num_motors>[1-4])(?P<entries>.+)\]$` (the
greedy `.+` with the final `\]$` makes the entries group everything strictly
between the count digit and the final `]`; `.` cannot cross a newline), then
the per-motor fullmatch, then the float conversions.  The source's
`len(match.groups()) != num_motors * 2` re-check can never fire once the
fullmatch succeeded, so it has no counterpart here. -/
def positionsOfStripped : List Char → Except DecodeError (List MaskPosition)
  | '[' :: '0' :: '1' :: d :: rest =>
      if '1' ≤ d && d ≤ '4' then
        match rest.getLast? with
        | some ']' =>
            let entries := rest.dropLast
            if entries.isEmpty || entries.contains '\n' then
              .error .malformedPositions
            else
              let n := digitVal d
              if positionsEntriesMatch n entries then
                positionsOfChunks (chunksOf 5 n entries)
              else .error .malformedEntries
        | _ => .error .malformedPositions
      else .error .malformedPositions
  | _ => .error .malformedPositions

/-- Embedding of `decode_positions(raw)`. -/
def decode_positions (raw : List Char) : Except DecodeError (List MaskPosition) :=
  positionsOfStripped (stripTrailingNewline raw)

/-! ### decode_system_info -/

/-- Embedding of `SystemInfo`: static device descriptor. -/
structure SystemInfo where
  screen_model : List Char
  width_inches : ℚ
  height_inches : ℚ
  serial_number : Serial
  mask_ids : List MotorID
deriving DecidableEq

/-- The character class `[0-9.]` of the 6-byte float fields. -/
def floatClass (c : Char) : Bool := c.isDigit || c = '.'

/-- The character class `[LRTB]` of the installed-motor field of
`_SYSTEM_INFO_RE` (note: only these four of the seven motor codes). -/
def maskClass (c : Char) : Bool := c = 'L' || c = 'R' || c = 'T' || c = 'B'

/-- The `[MotorID(c) for c in mask_ids_str]` comprehension; `MotorID(c)`
raising on an unknown code is an error (unreachable after the class check). -/
def motorsOfMask : List Char → Except DecodeError (List MotorID)
  | [] => .ok []
  | c :: rest =>
      match MotorID.ofChar? c with
      | some m =>
          match motorsOfMask rest with
          | .error e => .error e
          | .ok ms => .ok (m :: ms)
      | none => .error .malformedSystemInfo

/-- Body of `decode_system_info` after the `$`-anchor newline handling:
`_SYSTEM_INFO_RE =
^\[01(?P<model>.{20})(?P<width>[0-9.]{6})(?P<height>[0-9.]{6})(?P<serial>.{13})(?P<mask_ids>[LRTB]{1,5})\]$`.
Every field before the mask group has fixed width, so the mask width is
`length - 49` and the whole match is equivalent to a length-window check
plus per-slice class checks; `.` cannot match a newline.  Field conversions
run in source order: `strip`, `float(width)`, `float(height)`,
`Serial.from_serial_number`, motor list. -/
def systemInfoOfStripped (s : List Char) : Except DecodeError SystemInfo :=
  if s.take 3 = ['[', '0', '1'] && s.getLast? = some ']'
      && 50 ≤ s.length && s.length ≤ 54 then
    let body := (s.drop 3).dropLast
    let model := body.take 20
    let width := (body.drop 20).take 6
    let height := (body.drop 26).take 6
    let serial := (body.drop 32).take 13
    let mask := body.drop 45
    if !model.contains '\n' && width.all floatClass && height.all floatClass
        && !serial.contains '\n' && mask.all maskClass then
      match pyFloat? width with
      | none => .error .badFloat
      | some w =>
          match pyFloat? height with
          | none => .error .badFloat
          | some h =>
              match Serial.from_serial_number serial with
              | .error e => .error e
              | .ok sr =>
                  match motorsOfMask mask with
                  | .error e => .error e
                  | .ok ms =>
                      .ok { screen_model := pyStrip model
                            width_inches := w
                            height_inches := h
                            serial_number := sr
                            mask_ids := ms }
    else .error .malformedSystemInfo
  else .error .malformedSystemInfo

/-- Embedding of `decode_system_info(raw)`. -/
def decode_system_info (raw : List Char) : Except DecodeError SystemInfo :=
  systemInfoOfStripped (stripTrailingNewline raw)

/-! ### decode_settings -/

/-- Embedding of `RatioSetting`: one stored preset. -/
structure RatioSetting where
  ratio : Ratio
  label : List Char
  width_inches : ℚ
  height_inches : ℚ
  motor_positions_pct : List ℚ
  motor_adjustments_pct : List ℚ
deriving DecidableEq

/-- Embedding of `RatioSetting.expected_entry_length(num_motors)`:
3 (ratio ID) + 8 (label) + 6 (width) + 6 (height) + N*4 (positions)
+ N*4 (adjustments). -/
def expected_entry_length (num_motors : ℕ) : ℕ :=
  3 + 8 + 6 + 6 + num_motors * 4 + num_motors * 4

/-- Embedding of `float()` on a matched group, its `ValueError` propagating. -/
def floatOf (o : Option ℚ) : Except DecodeError ℚ :=
  match o with
  | some q => .ok q
  | none => .error .badFloat

/-- The per-motor loop of `RatioSetting.from_response_entry`: for each
`i`, convert position group `i` then adjustment group `i` (that is the
order the two `float()` calls run in the loop body). `tl` is the entry
suffix after ratio/label/width/height, `n` the motor count. -/
def motorPairs (tl : List Char) (n : ℕ) : List ℕ → Except DecodeError (List (ℚ × ℚ))
  | [] => .ok []
  | i :: is =>
      match floatOf (pyFloat? ((tl.drop (4 * i)).take 4)) with
      | .error e => .error e
      | .ok p =>
          match floatOf (pyFloat? ((tl.drop (4 * (n + i))).take 4)) with
          | .error e => .error e
          | .ok a =>
              match motorPairs tl n is with
              | .error e => .error e
              | .ok rest => .ok ((p, a) :: rest)

/-- Embedding of `RatioSetting.from_response_entry(entry, num_motors)`: `re.fullmatch`
of `([0-9]{3})(?P<label>.{8})(?P<width>[0-9.]{6})(?P<height>[0-9.]{6})`
followed by `([0-9.\-]{4})` repeated `2*num_motors` times — all fixed
width — then field conversions in source order (ratio id, label strip,
float(width), float(height), the motor loop). -/
def from_response_entry (entry : List Char) (num_motors : ℕ) :
    Except DecodeError RatioSetting :=
  if entry.length = expected_entry_length num_motors then
    let rid := entry.take 3
    let label := (entry.drop 3).take 8
    let width := (entry.drop 11).take 6
    let height := (entry.drop 17).take 6
    let tl := entry.drop 23
    if rid.all Char.isDigit && !label.contains '\n' && width.all floatClass
        && height.all floatClass && tl.all pctClass then
      match floatOf (pyFloat? width) with
      | .error e => .error e
      | .ok w =>
          match floatOf (pyFloat? height) with
          | .error e => .error e
          | .ok h =>
              match motorPairs tl num_motors (List.range num_motors) with
              | .error e => .error e
              | .ok pairs =>
                  .ok { ratio := ⟨rid⟩
                        label := pyStrip label
                        width_inches := w
                        height_inches := h
                        motor_positions_pct := pairs.map Prod.fst
                        motor_adjustments_pct := pairs.map Prod.snd }
    else .error .malformedEntry
  else .error .malformedEntry

/-- The frame-level match of `decode_settings` after the `$`-anchor newline
handling: `_SETTINGS_RE =
^\[01(?P<num_motors>[0-9])(?P<num_ratios>[0-9]{2})(?P<entries>.+)\]$`.
Returns the parsed counts and the entries group. -/
def settingsHeaderStripped : List Char → Option (ℕ × ℕ × List Char)
  | '[' :: '0' :: '1' :: d :: r1 :: r2 :: rest =>
      if d.isDigit && r1.isDigit && r2.isDigit then
        match rest.getLast? with
        | some ']' =>
            let entries := rest.dropLast
            if entries.isEmpty || entries.contains '\n' then none
            else some (digitVal d, 10 * digitVal r1 + digitVal r2, entries)
        | _ => none
      else none
  | _ => none

/-- Frame-level match of `decode_settings(raw)`. -/
def settingsHeader (raw : List Char) : Option (ℕ × ℕ × List Char) :=
  settingsHeaderStripped (stripTrailingNewline raw)

/-- The `for i in range(num_ratios)` loop of `decode_settings`: parse the
`i`-th width-`w` slice, stopping at the first failure. -/
def settingsEntriesLoop (entries : List Char) (n w : ℕ) :
    List ℕ → Except DecodeError (List RatioSetting)
  | [] => .ok []
  | i :: is =>
      match from_response_entry ((entries.drop (w * i)).take w) n with
      | .error e => .error e
      | .ok s =>
          match settingsEntriesLoop entries n w is with
          | .error e => .error e
          | .ok rest => .ok (s :: rest)

/-- Embedding of `decode_settings(raw)`: frame match, total-length check against
`expected_entry_length(num_motors) * num_ratios`, then the entry loop. -/
def decode_settings (raw : List Char) : Except DecodeError (List RatioSetting) :=
  match settingsHeader raw with
  | none => .error .malformedSettings
  | some (n, r, entries) =>
      if entries.length ≠ expected_entry_length n * r then
        .error (.lengthMismatch r (expected_entry_length n) entries.length)
      else
        settingsEntriesLoop entries n (expected_entry_length n) (List.range r)

/-! ### The operation coordinator (client.py)

`SeymourClient` state relevant to the claims is the `_connected` flag.
The retried execution path `_execute_operation` performs transport I/O;
its outcome (a response frame, or the exception escaping after the retry
loop) is abstracted as an `Except` value handed to the pure error-handling
layer `_send_and_maybe_receive`, which is embedded faithfully below. -/

/-- The Python exception classes (all `Exception` subclasses) that can
arise inside an operation attempt or escape `_execute_operation`.
`retryError e` is `tenacity.RetryError` wrapping the failure `e` of the
last attempt: `_execute_operation`'s `AsyncRetrying` is constructed
without `reraise=True`, so exhausting the retry budget raises
`RetryError`, not the underlying exception (the repository's own tests
assert this of `_execute_operation`). -/
inductive PyExc
  | seymourTransportError
  | timeoutExc              -- builtins TimeoutError (= asyncio timeout)
  | connectionExc           -- builtins ConnectionError
  | osExc                   -- builtins OSError
  | seymourConnectionError
  | seymourProtocolError
  | valueExc (e : DecodeError)  -- ValueError carrying a decode failure
  | retryError (last : PyExc)   -- tenacity.RetryError wrapping the last attempt
  | otherExc
deriving DecidableEq

/-- The `isinstance(exc, SeymourTransportError | TimeoutError |
ConnectionError | OSError)` test — used both as `_execute_operation`'s
`retry_if_exception_type` tuple and as `_send_and_maybe_receive`'s
classification test.  `tenacity.RetryError` is not a subclass of any of
the four, so `retryError _` falls to the catch-all. -/
def transportClass : PyExc → Bool
  | .seymourTransportError => true
  | .timeoutExc => true
  | .connectionExc => true
  | .osExc => true
  | _ => false

/-- Embedding of the `AsyncRetrying` loop of `_execute_operation`: given
the outcome of the first attempt and the outcomes of the remaining
attempts the `stop_after_attempt` budget allows, a success returns at
once; a failure outside the `retry_if_exception_type` tuple (the
transport-class tuple) escapes bare at once; a transport-class failure
retries while budget remains and, once the budget is exhausted, escapes
wrapped as `tenacity.RetryError` because `reraise` is left unset. -/
def tenacityRun {α : Type} :
    Except PyExc α → List (Except PyExc α) → Except PyExc α
  | .ok v, _ => .ok v
  | .error e, [] =>
      if transportClass e then .error (.retryError e) else .error e
  | .error e, b :: bs =>
      if transportClass e then tenacityRun b bs else .error e

/-- Coordinator-visible mutable state (`SeymourClient._connected`). -/
structure ClientState where
  connected : Bool
deriving DecidableEq

/-- Embedding of `_send_and_maybe_receive(frame, receive)` given the outcome of
`_execute_operation` (`some raw` when a frame was received, `none` for a
fire-and-forget send): on success the state is untouched and the value
returned; on any `Exception`, `self._connected = False` runs first, then
transport-class failures re-raise as `SeymourConnectionError` and anything
else as `SeymourProtocolError`. -/
def send_and_maybe_receive (st : ClientState)
    (execResult : Except PyExc (Option (List Char))) :
    ClientState × Except PyExc (Option (List Char)) :=
  match execResult with
  | .ok v => (st, .ok v)
  | .error e =>
      (⟨false⟩,
        .error (if transportClass e then .seymourConnectionError
                else .seymourProtocolError))

/-- Embedding of `get_status()`: `_send_and_receive(encode_status())` followed by
`protocol.decode_status(raw)`.  The decode call sits outside
`_send_and_maybe_receive`'s `try` block, so a decode `ValueError`
propagates as-is and runs no state update. -/
def get_status (st : ClientState) (execResult : Except PyExc (List Char)) :
    ClientState × Except PyExc MaskStatus :=
  match send_and_maybe_receive st (execResult.map some) with
  | (st2, .error e) => (st2, .error e)
  | (st2, .ok raw) =>
      match decode_status (raw.getD []) with
      | .ok ms => (st2, .ok ms)
      | .error de => (st2, .error (.valueExc de))

/-- One pass of the `while True` body of `_health_check_loop(interval)`,
after the sleep: given the clock, the last-success timestamp, the interval,
the connected flag and the outcome of the status query `_health_check`
would perform, it returns (status query performed?, connected flag after,
loop keeps running?).  `asyncio.CancelledError` (the only way the loop
stops) is not an `Exception` and is outside this model. -/
def health_check_iteration (now last_success interval : ℚ)
    (connected : Bool) (checkResult : Except PyExc Unit) :
    Bool × Bool × Bool :=
  if now - last_success < interval / 2 then
    (false, connected, true)
  else if connected then
    match checkResult with
    | .ok _ => (true, connected, true)
    | .error _ => (true, false, true)
  else
    (false, connected, true)

/-! ### Concurrency model of the operation path

`_execute_operation` runs `await self.transport.send(frame)` then (for a
query) `await self.transport.receive()`.  Each `await` is a scheduling
point of the asyncio event loop.  The source acquires no lock anywhere on
this path (`self._lock` is taken only by `connect()` and `close()`), so
between a task's send and its receive the event loop is free to run
another task's send.  The model below is that semantics: each concurrent
operation contributes its ordered transport actions, and a schedule is any
interleaving of the tasks' action lists. -/

/-- One observable transport action, tagged with the issuing task. -/
inductive WireEvent
  | send (tid : ℕ)
  | recv (tid : ℕ)
deriving DecidableEq

/-- The ordered transport actions of one query-style operation (such as
`get_status`) as performed by `_execute_operation` with `receive=True`:
a send, then a receive, with no lock held across them. -/
def opTrace (tid : ℕ) : List WireEvent := [.send tid, .recv tid]

/-- An asyncio schedule of two concurrent tasks: at each step the chooser
picks which task's next pending action runs (`true` = first task).  With
no lock in the operation path every such interleaving is reachable. -/
def schedule : List WireEvent → List WireEvent → List Bool → List WireEvent
  | as, bs, [] => as ++ bs
  | [], bs, _ :: _ => bs
  | a :: as, bs, true :: cs => a :: schedule as bs cs
  | a :: as, [], false :: cs => a :: schedule as [] cs
  | as, b :: bs, false :: cs => b :: schedule as bs cs

/-- The claim's invariant on the transport log: send+receive pairs are
atomic — every send is immediately followed by the same task's receive,
so one pair fully completes before the other's send begins. -/
def pairsAtomic : List WireEvent → Bool
  | [] => true
  | .send t1 :: .recv t2 :: rest => t1 = t2 && pairsAtomic rest
  | _ => false

/-! ## The claims -/

/-- C1: the claim says a single mutual-exclusion lock is held for the full
duration of each logical operation, so the send+receive pairs of two
concurrent operations never interleave.  The source's operation path
(`_execute_operation`) acquires no lock — `self._lock` is used only by
`connect()` and `close()` — so the asyncio scheduler can run task 1's send
between task 0's send and receive.  This theorem exhibits that schedule:
two concurrent query operations produce the transport log
[send 0, send 1, recv 0, recv 1], which violates the claimed pairing
invariant.  (The repository's own test suite,
`tests/test_client_concurrency.py`, asserts the lock was moved into
`_execute_operation`; the code under `src/` does not do so.) -/
theorem c1_unlocked_operation_path_tears_pairs :
    schedule (opTrace 0) (opTrace 1) [true, false, true, false] =
      [.send 0, .send 1, .recv 0, .recv 1] ∧
    pairsAtomic [.send 0, .send 1, .recv 0, .recv 1] = false ∧
    pairsAtomic (opTrace 0 ++ opTrace 1) = true := by
  decide

/-- C2 (counterexample): the claim says a query operation whose response
frame fails to decode raises a protocol error and marks the coordinator
Disconnected.  In the source, `decode_status` runs in `get_status` after
`_send_and_maybe_receive` has already returned, outside its `try` block:
on the undecodable frame `[01Z]` the bare decode `ValueError` propagates
(not `SeymourProtocolError`) and the connected flag stays `True`. -/
theorem c2_decode_failure_escapes_unwrapped :
    get_status ⟨true⟩ (.ok (("[01Z]").data)) =
      (⟨true⟩, .error (.valueExc .malformedStatus)) ∧
    PyExc.valueExc .malformedStatus ≠ PyExc.seymourProtocolError ∧
    (get_status ⟨true⟩ (.ok (("[01Z]").data))).1.connected = true := by
  decide

/-- C2 (amended): when a query-style operation receives a response frame
that fails to decode, the decode failure is not retried and propagates to
the caller as the bare decode error (not wrapped as a protocol error), and
the coordinator's connection state is left unchanged — it is NOT marked
Disconnected, because the decode runs after the wrapped execution path. -/
theorem c2_decode_failure_propagates_bare :
    ∀ (st : ClientState) (raw : List Char) (de : DecodeError),
      decode_status raw = .error de →
      get_status st (.ok raw) = (st, .error (.valueExc de)) := by
  intro st raw de h
  simp [get_status, send_and_maybe_receive, Except.map, h]

/-- C2 witness: the amended theorem instantiated at a connected client
receiving the undecodable frame `[01Z]`. -/
theorem c2_witness :
    get_status ⟨true⟩ (.ok (("[01Z]").data)) =
      (⟨true⟩, .error (.valueExc .malformedStatus)) :=
  c2_decode_failure_propagates_bare ⟨true⟩ (("[01Z]").data)
    .malformedStatus (by rfl)

/-- No error value escaping the retried execution path passes the
transport-class test: a bare escape was non-retryable (hence outside the
tuple) and an exhausted retry escapes as `RetryError`, which is also
outside the tuple. -/
theorem tenacityRun_error_not_transport {α : Type} :
    ∀ (rest : List (Except PyExc α)) (first : Except PyExc α) (e : PyExc),
      tenacityRun first rest = .error e → transportClass e = false := by
  intro rest
  induction rest with
  | nil =>
      intro first e h
      cases first with
      | ok v => exact absurd h (by simp [tenacityRun])
      | error e0 =>
          rw [tenacityRun] at h
          by_cases hc : transportClass e0 = true
          · rw [if_pos hc] at h
            cases h
            rfl
          · rw [if_neg hc] at h
            cases h
            exact Bool.not_eq_true _ ▸ Bool.of_not_eq_true hc
  | cons b bs ih =>
      intro first e h
      cases first with
      | ok v => exact absurd h (by simp [tenacityRun])
      | error e0 =>
          rw [tenacityRun] at h
          by_cases hc : transportClass e0 = true
          · rw [if_pos hc] at h
            exact ih b e h
          · rw [if_neg hc] at h
            cases h
            exact Bool.not_eq_true _ ▸ Bool.of_not_eq_true hc

/-- C3: the claim says a failure escaping the retried execution path is
re-raised as a connection error exactly when the underlying failure is
transport-class.  The code is wrong: `_execute_operation`'s
`AsyncRetrying` is built without `reraise=True`, so an exhausted
transport/timeout retry budget escapes as `tenacity.RetryError`, which
fails the `isinstance` transport-class check in
`_send_and_maybe_receive` and is re-raised as `SeymourProtocolError` —
the repository's own test (`test_client.py`,
`test_send_and_maybe_receive_marks_disconnected_on_error`) expects
`SeymourConnectionError` there and fails against this code, while the
spec's table says "operation retries exhausted (transport/timeout) →
connection-error".  Concretely: two attempts both failing with
`SeymourTransportError` escape as `RetryError`, are re-raised as a
protocol error, not a connection error (first conjuncts); in general
every error escaping the retried path — the claim's true half — still
marks the coordinator Disconnected, but is always re-raised as
`SeymourProtocolError`: the connection-error branch is unreachable from
the operation path. -/
theorem c3_exhausted_retries_raise_protocol_error :
    (tenacityRun (Except.error PyExc.seymourTransportError)
        [Except.error PyExc.seymourTransportError] =
      (Except.error (PyExc.retryError PyExc.seymourTransportError) :
        Except PyExc (Option (List Char)))) ∧
    transportClass PyExc.seymourTransportError = true ∧
    send_and_maybe_receive ⟨true⟩
        (.error (.retryError .seymourTransportError)) =
      (⟨false⟩, .error .seymourProtocolError) ∧
    (∀ (st : ClientState) (first : Except PyExc (Option (List Char)))
        (rest : List (Except PyExc (Option (List Char)))) (e : PyExc),
      tenacityRun first rest = .error e →
        (send_and_maybe_receive st (.error e)).1.connected = false ∧
        (send_and_maybe_receive st (.error e)).2 =
          .error .seymourProtocolError) := by
  refine ⟨by decide, by decide, by decide, ?_⟩
  intro st first rest e h
  have hnt := tenacityRun_error_not_transport rest first e h
  constructor
  · simp [send_and_maybe_receive]
  · simp [send_and_maybe_receive, hnt]

/-- C3 witness: the general part instantiated at a single-attempt budget
failing with a transport error, whose escape (`RetryError`) marks the
coordinator Disconnected and re-raises the protocol error. -/
theorem c3_witness :
    (send_and_maybe_receive ⟨true⟩
        (.error (.retryError .seymourTransportError))).1.connected = false ∧
    (send_and_maybe_receive ⟨true⟩
        (.error (.retryError .seymourTransportError))).2 =
      .error .seymourProtocolError :=
  c3_exhausted_retries_raise_protocol_error.2.2.2 ⟨true⟩
    (.error .seymourTransportError) [] (.retryError .seymourTransportError)
    (by decide)

/-- C8: ratio identifier construction accepts every 3-character all-digit
string and raises a validation error, before any I/O (`Ratio.make` is
pure), for every string whose length is not 3 or containing a non-digit.
(Over the ASCII strings of this wire protocol, Python's `str.isdigit`
coincides with the per-character ASCII digit test used here.) -/
theorem c8_ratio_validation :
    ∀ (s : List Char),
      (s.length = 3 → s.all Char.isDigit = true → Ratio.make s = .ok ⟨s⟩) ∧
      (s.length ≠ 3 → Ratio.make s = .error .wrongLength) ∧
      (s.length = 3 → s.all Char.isDigit = false →
        Ratio.make s = .error .notNumeric) := by
  intro s
  refine ⟨fun h1 h2 => ?_, fun h1 => ?_, fun h1 h2 => ?_⟩
  · simp [Ratio.make, h1, h2]
  · simp [Ratio.make, h1]
  · simp [Ratio.make, h1, h2]

/-- C8 witness: `Ratio.make` at the concrete inputs 235 (accepted), 12
(wrong length) and 23X (non-digit). -/
theorem c8_witness :
    Ratio.make (("235").data) = .ok ⟨("235").data⟩ ∧
    Ratio.make (("12").data) = .error .wrongLength ∧
    Ratio.make (("23X").data) = .error .notNumeric :=
  ⟨(c8_ratio_validation (("235").data)).1 (by decide) (by decide),
   (c8_ratio_validation (("12").data)).2.1 (by decide),
   (c8_ratio_validation (("23X").data)).2.2 (by decide) (by decide)⟩

/-- C9: in any iteration of the health-check loop, if the most recent
successful operation occurred less than half the configured interval ago
the iteration performs no status query; and if the health check's status
query fails, the coordinator is marked Disconnected but the loop keeps
running (it neither exits nor leaves the monitoring state). -/
theorem c9_health_check_skip_and_survive :
    ∀ (now last interval : ℚ) (connected : Bool)
      (res : Except PyExc Unit) (e : PyExc),
      (now - last < interval / 2 →
        (health_check_iteration now last interval connected res).1 = false) ∧
      (¬ now - last < interval / 2 →
        health_check_iteration now last interval true (.error e) =
          (true, false, true)) := by
  intro now last interval connected res e
  constructor
  · intro h
    simp [health_check_iteration, h]
  · intro h
    simp [health_check_iteration, h]

/-- The entry loop of `decode_settings` succeeds only with exactly one
parsed setting per requested index. -/
theorem settingsEntriesLoop_length (entries : List Char) (n w : ℕ) :
    ∀ (is : List ℕ) (xs : List RatioSetting),
      settingsEntriesLoop entries n w is = .ok xs →
      xs.length = is.length := by
  intro is
  induction is with
  | nil =>
      intro xs h
      simp only [settingsEntriesLoop] at h
      cases h
      rfl
  | cons i is ih =>
      intro xs h
      rw [settingsEntriesLoop] at h
      cases hf : from_response_entry ((entries.drop (w * i)).take w) n with
      | error e => rw [hf] at h; exact absurd h (by simp)
      | ok s =>
          rw [hf] at h
          cases hr : settingsEntriesLoop entries n w is with
          | error e => rw [hr] at h; exact absurd h (by simp)
          | ok rest =>
              rw [hr] at h
              simp only [Except.ok.injEq] at h
              subst h
              simp [ih rest hr]

/-- C4: for every motor count N the settings-decode entry byte-width is
`3 + 8 + 6 + 6 + N*4 + N*4`; `decode_settings` fails with the explicit
length-mismatch error whenever the total entries-payload length differs
from ratio-count × entry-width; and a successful decode always returns
exactly the declared number of fully parsed entries (never a partially
populated result). -/
theorem c4_settings_entry_width_and_length_check :
    (∀ n, expected_entry_length n = 3 + 8 + 6 + 6 + n * 4 + n * 4) ∧
    (∀ (raw : List Char) (n r : ℕ) (entries : List Char),
      settingsHeader raw = some (n, r, entries) →
      entries.length ≠ expected_entry_length n * r →
      decode_settings raw =
        .error (.lengthMismatch r (expected_entry_length n) entries.length)) ∧
    (∀ (raw : List Char) (l : List RatioSetting),
      decode_settings raw = .ok l →
      ∃ n r entries, settingsHeader raw = some (n, r, entries) ∧
        l.length = r) := by
  refine ⟨fun n => rfl, ?_, ?_⟩
  · intro raw n r entries hh hlen
    simp [decode_settings, hh, hlen]
  · intro raw l h
    cases hh : settingsHeader raw with
    | none =>
        simp only [decode_settings, hh] at h
        exact absurd h (by simp)
    | some t =>
        obtain ⟨n, r, entries⟩ := t
        simp only [decode_settings, hh] at h
        by_cases hlen : entries.length ≠ expected_entry_length n * r
        · rw [if_pos hlen] at h; exact absurd h (by simp)
        · rw [if_neg hlen] at h
          refine ⟨n, r, entries, rfl, ?_⟩
          have := settingsEntriesLoop_length entries n
            (expected_entry_length n) (List.range r) l h
          simpa using this

/-- C4 witness: the frame `[01101AB]` declares 1 motor (entry width 31)
and 1 ratio but carries a 2-byte entries payload, so decode fails with the
length-mismatch error; the frame
`[01001000AAAAAAAA000001000002]` (0 motors, 1 ratio, one 23-byte entry)
decodes to exactly 1 complete entry. -/
theorem c4_witness :
    decode_settings (("[01101AB]").data) =
      .error (.lengthMismatch 1 31 2) ∧
    decode_settings (("[01001000AAAAAAAA000001000002]").data) =
      .ok [{ ratio := ⟨("000").data⟩, label := ("AAAAAAAA").data,
             width_inches := 1, height_inches := 2,
             motor_positions_pct := [], motor_adjustments_pct := [] }] ∧
    (∃ n r entries,
      settingsHeader (("[01001000AAAAAAAA000001000002]").data) =
        some (n, r, entries) ∧
      ([{ ratio := ⟨("000").data⟩, label := ("AAAAAAAA").data,
          width_inches := 1, height_inches := 2,
          motor_positions_pct := ([] : List ℚ),
          motor_adjustments_pct := ([] : List ℚ) }] : List RatioSetting).length
        = r) :=
  ⟨c4_settings_entry_width_and_length_check.2.1 (("[01101AB]").data) 1 1
      (("AB").data) (by decide) (by decide),
   by decide,
   c4_settings_entry_width_and_length_check.2.2
      (("[01001000AAAAAAAA000001000002]").data) _ (by decide)⟩

/-- Every ASCII digit character is `Nat.digitChar` of its digit value,
which is below 10. -/
theorem digitChar_digitVal (c : Char) (h : c.isDigit = true) :
    Nat.digitChar (digitVal c) = c ∧ digitVal c < 10 := by
  have h' : 48 ≤ c.toNat ∧ c.toNat ≤ 57 := by
    simp [Char.isDigit] at h
    exact ⟨h.1, h.2⟩
  obtain ⟨h1, h2⟩ := h'
  have hv := (Char.ofNat_toNat c).symm
  rw [digitVal]
  interval_cases hn : c.toNat <;> simp_all <;> decide

/-- Printing a two-digit value with the 02d format yields its two digit characters. -/
theorem format02_two_digits :
    ∀ a, a < 10 → ∀ b, b < 10 →
      format02 (10 * a + b) = [Nat.digitChar a, Nat.digitChar b] := by
  decide

/-- C6: serial-number round-trip — for every well-formed serial string of
the shape XX-MMYY-PPPPP, `format(parse(s)) == s`; and any accepted input
necessarily has exactly 13 characters (so a wrong-width model code, month,
year or production number is rejected), hyphens at positions 2 and 7 (so
missing hyphens are rejected) and ASCII digits at positions 3-6; in
particular any input of a different total width is rejected. -/
theorem c6_serial_round_trip :
    (∀ (s : List Char) (r : Serial),
      Serial.from_serial_number s = .ok r →
      Serial.to_serial_number r = s) ∧
    (∀ (s : List Char), (Serial.from_serial_number s).isOk = true →
      s.length = 13 ∧ s.get? 2 = some '-' ∧ s.get? 7 = some '-' ∧
      ∀ i, i ∈ [3, 4, 5, 6] → ∃ c, s.get? i = some c ∧ c.isDigit = true) ∧
    (∀ (s : List Char), s.length ≠ 13 →
      (Serial.from_serial_number s).isOk = false) := by
  refine ⟨?_, ?_, ?_⟩
  · intro s r h
    unfold Serial.from_serial_number at h
    split at h
    case h_2 => exact absurd h (by simp)
    case h_1 a b m1 m2 y1 y2 p1 p2 p3 p4 p5 =>
      split at h
      case isFalse => exact absurd h (by simp)
      case isTrue hc =>
        simp only [Except.ok.injEq] at h
        subst h
        simp only [Bool.and_eq_true, decide_eq_true_eq] at hc
        obtain ⟨⟨⟨⟨⟨⟨⟨⟨⟨⟨ha, hb⟩, hm1⟩, hm2⟩, hy1⟩, hy2⟩, hp1⟩, hp2⟩,
          hp3⟩, hp4⟩, hp5⟩ := hc
        obtain ⟨em1, lm1⟩ := digitChar_digitVal m1 hm1
        obtain ⟨em2, lm2⟩ := digitChar_digitVal m2 hm2
        obtain ⟨ey1, ly1⟩ := digitChar_digitVal y1 hy1
        obtain ⟨ey2, ly2⟩ := digitChar_digitVal y2 hy2
        simp [Serial.to_serial_number,
          format02_two_digits (digitVal m1) lm1 (digitVal m2) lm2,
          format02_two_digits (digitVal y1) ly1 (digitVal y2) ly2,
          em1, em2, ey1, ey2]
  · intro s h
    unfold Serial.from_serial_number at h
    split at h
    case h_2 => exact absurd h (by simp [Except.isOk, Except.toBool])
    case h_1 a b m1 m2 y1 y2 p1 p2 p3 p4 p5 =>
      split at h
      case isFalse => exact absurd h (by simp [Except.isOk, Except.toBool])
      case isTrue hc =>
        simp only [Bool.and_eq_true, decide_eq_true_eq] at hc
        obtain ⟨⟨⟨⟨⟨⟨⟨⟨⟨⟨ha, hb⟩, hm1⟩, hm2⟩, hy1⟩, hy2⟩, hp1⟩, hp2⟩,
          hp3⟩, hp4⟩, hp5⟩ := hc
        refine ⟨rfl, rfl, rfl, ?_⟩
        intro i hi
        fin_cases hi
        · exact ⟨m1, rfl, hm1⟩
        · exact ⟨m2, rfl, hm2⟩
        · exact ⟨y1, rfl, hy1⟩
        · exact ⟨y2, rfl, hy2⟩
  · intro s hlen
    cases hok : (Serial.from_serial_number s).isOk with
    | false => rfl
    | true =>
        exfalso
        apply hlen
        unfold Serial.from_serial_number at hok
        split at hok
        case h_2 => exact absurd hok (by simp [Except.isOk, Except.toBool])
        case h_1 a b m1 m2 y1 y2 p1 p2 p3 p4 p5 => rfl

/-- C6 witness: the round trip and the accepted-shape facts at the
concrete serial `AB-1225-12345`. -/
theorem c6_witness :
    Serial.from_serial_number (("AB-1225-12345").data) =
      .ok { model_code := ("AB").data, month := 12, year := 25,
            production_number := ("12345").data } ∧
    Serial.to_serial_number
      { model_code := ("AB").data, month := 12, year := 25,
        production_number := ("12345").data } = ("AB-1225-12345").data ∧
    (Serial.from_serial_number (("AB1225-12345X").data)).isOk = false :=
  ⟨by rfl,
   c6_serial_round_trip.1 (("AB-1225-12345").data) _ (by rfl),
   by rfl⟩

/-- C5: `decode_positions(b"[013T25.5B75.0L-10.]")` returns exactly 3
entries in wire order with motor ids T, B, L and percentages 25.5, 75.0,
-10.0; and whenever the leading motor-count digit is inconsistent with the
number of fixed-width 5-byte entries actually present (the entries region
length differs from 5 × count), `decode_positions` fails rather than
silently truncating. -/
theorem c5_positions_decode_and_count_consistency :
    decode_positions (("[013T25.5B75.0L-10.]").data) =
      .ok [⟨.top, 25.5⟩, ⟨.bottom, 75.0⟩, ⟨.left, -10.0⟩] ∧
    (∀ (d : Char) (entries : List Char),
      (d = '1' ∨ d = '2' ∨ d = '3' ∨ d = '4') →
      entries ≠ [] → entries.contains '\n' = false →
      entries.length ≠ 5 * digitVal d →
      decode_positions ('[' :: '0' :: '1' :: d :: (entries ++ [']'])) =
        .error .malformedEntries) := by
  constructor
  · have e1 : (25.5 : ℚ) = mkRat 51 2 := by rw [Rat.mkRat_eq_div]; norm_num
    have e2 : (75.0 : ℚ) = mkRat 75 1 := by rw [Rat.mkRat_eq_div]; norm_num
    have e3 : (-10.0 : ℚ) = mkRat (-10) 1 := by rw [Rat.mkRat_eq_div]; norm_num
    rw [e1, e2, e3]
    decide
  · intro d entries hd hne hnl hlen
    have hform : ('[' :: '0' :: '1' :: d :: (entries ++ [']'])) =
        ('[' :: '0' :: '1' :: d :: entries) ++ [']'] := rfl
    have hstrip : stripTrailingNewline
        ('[' :: '0' :: '1' :: d :: (entries ++ [']'])) =
        '[' :: '0' :: '1' :: d :: (entries ++ [']']) := by
      rw [stripTrailingNewline, hform, List.getLast?_concat]
      simp
    have hd14 : ('1' ≤ d && d ≤ '4') = true := by
      rcases hd with rfl | rfl | rfl | rfl <;> decide
    have hmem : '\n' ∉ entries := by simpa using hnl
    have hnee : entries.isEmpty = false := by
      simpa [List.isEmpty_iff] using hne
    rw [decode_positions, hstrip]
    simp [positionsOfStripped, hd14, List.getLast?_concat,
      List.dropLast_concat, hnee, hmem, positionsEntriesMatch, hlen]

/-- C5 witness: a frame declaring 2 motors but carrying 3 fixed-width
entries (15 bytes instead of 10) fails decode. -/
theorem c5_witness :
    decode_positions ('[' :: '0' :: '1' :: '2' ::
        ((("T25.5B75.0L-10.").data) ++ [']'])) =
      .error .malformedEntries :=
  c5_positions_decode_and_count_consistency.2 '2' (("T25.5B75.0L-10.").data)
    (by decide) (by decide) (by decide) (by decide)

/-- On a mask field that passed the `[LRTB]` class check, the motor-list
comprehension succeeds and returns the codes in wire order. -/
theorem motorsOfMask_ok (mask : List Char) (h : mask.all maskClass = true) :
    motorsOfMask mask = .ok (mask.filterMap MotorID.ofChar?) := by
  induction mask with
  | nil => rfl
  | cons c rest ih =>
      simp only [List.all_cons, Bool.and_eq_true] at h
      obtain ⟨hc, hrest⟩ := h
      have hc4 : c = 'L' ∨ c = 'R' ∨ c = 'T' ∨ c = 'B' := by
        simpa [maskClass, or_assoc] using hc
      rcases hc4 with rfl | rfl | rfl | rfl <;>
        rw [motorsOfMask] <;>
        simp [MotorID.ofChar?, ih hrest, List.filterMap_cons]

/-- C7 (counterexample): the claim says the installed-motor field accepts
any of the seven motor codes T,B,L,R,V,H,A.  `V` is a valid motor code,
but `_SYSTEM_INFO_RE` restricts the field to the class `[LRTB]`, so an
otherwise well-formed system-info frame whose installed-motor field is
`V` is rejected. -/
theorem c7_vertical_motor_rejected :
    MotorID.ofChar? 'V' = some .vertical ∧
    decode_system_info
      (("[01SCREEN MODEL        123.00056.25AB-1225-12345V]").data) =
      .error .malformedSystemInfo ∧
    decode_system_info
      (("[01SCREEN MODEL        123.00056.25AB-1225-12345T]").data) =
      .ok { screen_model := ("SCREEN MODEL").data,
            width_inches := mkRat 12300 100,
            height_inches := mkRat 5625 100,
            serial_number := { model_code := ("AB").data, month := 12,
                               year := 25,
                               production_number := ("12345").data },
            mask_ids := [.top] } := by
  refine ⟨rfl, by decide, by decide⟩

/-- C7 (amended): `decode_system_info` accepts a well-formed system-info
frame whose installed-motor field is any sequence of 1 to 5 characters
drawn from the codes `L`, `R`, `T`, `B` (not the full motor alphabet:
`V`, `H` and `A` are rejected by the `[LRTB]` class), returning them as
the ordered list of installed motor selectors. -/
theorem c7_system_info_mask_chars :
    ∀ (model width height serial mask : List Char) (w h : ℚ) (sr : Serial),
      model.length = 20 → model.contains '\n' = false →
      width.length = 6 → width.all floatClass = true →
      pyFloat? width = some w →
      height.length = 6 → height.all floatClass = true →
      pyFloat? height = some h →
      serial.length = 13 → serial.contains '\n' = false →
      Serial.from_serial_number serial = .ok sr →
      1 ≤ mask.length → mask.length ≤ 5 → mask.all maskClass = true →
      decode_system_info ('[' :: '0' :: '1' ::
          (model ++ (width ++ (height ++ (serial ++ (mask ++ [']'])))))) =
        .ok { screen_model := pyStrip model, width_inches := w,
              height_inches := h, serial_number := sr,
              mask_ids := mask.filterMap MotorID.ofChar? } := by
  intro model width height serial mask w h sr hml hmn hwl hwc hwf hhl hhc
    hhf hsl hsn hsok hk1 hk5 hkc
  set s : List Char := '[' :: '0' :: '1' ::
    (model ++ (width ++ (height ++ (serial ++ (mask ++ [']']))))) with hs
  have hmaskne : mask ≠ [] := by
    intro he
    rw [he] at hk1
    exact absurd hk1 (by simp)
  have hconcat : s =
      ('[' :: '0' :: '1' :: (model ++ (width ++ (height ++ (serial ++ mask)))))
        ++ [']'] := by
    simp [hs, List.append_assoc]
  have hlast : s.getLast? = some ']' := by
    rw [hconcat, List.getLast?_concat]
  have hstrip : stripTrailingNewline s = s := by
    rw [stripTrailingNewline, hlast]
    simp
  have hslen : s.length = 49 + mask.length := by
    simp [hs, hml, hwl, hhl, hsl]
    omega
  have hbody : (s.drop 3).dropLast =
      model ++ (width ++ (height ++ (serial ++ mask))) := by
    have e1 : s.drop 3 =
        (model ++ (width ++ (height ++ (serial ++ mask)))) ++ [']'] := by
      simp [hs, List.append_assoc]
    rw [e1, List.dropLast_concat]
  have htake3 : s.take 3 = ['[', '0', '1'] := by simp [hs]
  have eModel : (model ++ (width ++ (height ++ (serial ++ mask)))).take 20
      = model := List.take_left' hml
  have eRest1 : (model ++ (width ++ (height ++ (serial ++ mask)))).drop 20
      = width ++ (height ++ (serial ++ mask)) := List.drop_left' hml
  have eWidth : ((model ++ (width ++ (height ++ (serial ++ mask)))).drop
      20).take 6 = width := by rw [eRest1]; exact List.take_left' hwl
  have eRest2 : (model ++ (width ++ (height ++ (serial ++ mask)))).drop 26
      = height ++ (serial ++ mask) := by
    have := List.drop_drop 6 20
      (model ++ (width ++ (height ++ (serial ++ mask))))
    rw [eRest1] at this
    rw [show (26 : ℕ) = 6 + 20 from rfl, ← this]
    exact List.drop_left' hwl
  have eHeight : ((model ++ (width ++ (height ++ (serial ++ mask)))).drop
      26).take 6 = height := by rw [eRest2]; exact List.take_left' hhl
  have eRest3 : (model ++ (width ++ (height ++ (serial ++ mask)))).drop 32
      = serial ++ mask := by
    have := List.drop_drop 6 26
      (model ++ (width ++ (height ++ (serial ++ mask))))
    rw [eRest2] at this
    rw [show (32 : ℕ) = 6 + 26 from rfl, ← this]
    exact List.drop_left' hhl
  have eSerial : ((model ++ (width ++ (height ++ (serial ++ mask)))).drop
      32).take 13 = serial := by rw [eRest3]; exact List.take_left' hsl
  have eMask : (model ++ (width ++ (height ++ (serial ++ mask)))).drop 45
      = mask := by
    have := List.drop_drop 13 32
      (model ++ (width ++ (height ++ (serial ++ mask))))
    rw [eRest3] at this
    rw [show (45 : ℕ) = 13 + 32 from rfl, ← this]
    exact List.drop_left' hsl
  rw [decode_system_info, hstrip]
  simp only [systemInfoOfStripped]
  rw [hbody, eModel, eWidth, eHeight, eSerial, eMask, htake3, hlast, hslen,
    hmn, hwc, hhc, hsn, hkc, hwf, hhf, hsok, motorsOfMask_ok mask hkc]
  have d1 : 50 ≤ 49 + mask.length := by omega
  have d2 : 49 + mask.length ≤ 54 := by omega
  simp [d1, d2]

/-- C7 witness: the amended theorem instantiated at a concrete frame with
installed motors `TB`. -/
theorem c7_witness :
    decode_system_info ('[' :: '0' :: '1' ::
        ((("SCREEN MODEL        ").data) ++ ((("123.00").data) ++
          ((("056.25").data) ++ ((("AB-1225-12345").data) ++
            ((("TB").data) ++ [']'])))))) =
      .ok { screen_model := pyStrip (("SCREEN MODEL        ").data),
            width_inches := mkRat 12300 100,
            height_inches := mkRat 5625 100,
            serial_number := { model_code := ("AB").data, month := 12,
                               year := 25,
                               production_number := ("12345").data },
            mask_ids := (("TB").data).filterMap MotorID.ofChar? } :=
  c7_system_info_mask_chars (("SCREEN MODEL        ").data)
    (("123.00").data) (("056.25").data) (("AB-1225-12345").data)
    (("TB").data) (mkRat 12300 100) (mkRat 5625 100)
    { model_code := ("AB").data, month := 12, year := 25,
      production_number := ("12345").data }
    (by decide) (by decide) (by decide) (by decide) (by decide) (by decide)
    (by decide) (by decide) (by decide) (by decide) (by decide) (by decide)
    (by decide) (by decide)

/-- C10 (implicit): every response decode function also accepts a
well-formed frame followed by exactly one trailing newline byte, returning
the same result as for the bare frame: the `$` anchor of the `_frame_re`
patterns tolerates one final newline, so decoding does not reject every
input with bytes after the closing `]`. -/
theorem c10_trailing_newline_tolerated :
    ∀ (core : List Char), core.getLast? = some ']' →
      decode_status (core ++ ['\n']) = decode_status core ∧
      decode_positions (core ++ ['\n']) = decode_positions core ∧
      decode_system_info (core ++ ['\n']) = decode_system_info core ∧
      decode_settings (core ++ ['\n']) = decode_settings core := by
  intro core h
  have h1 : stripTrailingNewline (core ++ ['\n']) = core := by
    simp [stripTrailingNewline, List.getLast?_concat, List.dropLast_concat]
  have h2 : stripTrailingNewline core = core := by
    simp [stripTrailingNewline, h]
  refine ⟨?_, ?_, ?_, ?_⟩ <;>
    simp [decode_status, decode_positions, decode_system_info,
      decode_settings, settingsHeader, h1, h2]

/-- C10 witness: the status frame `[01H]` decodes identically with and
without a trailing newline (and the same equation for the other three
decoders at that input). -/
theorem c10_witness :
    ((("[01H]").data).getLast? = some ']') ∧
    decode_status ((("[01H]").data) ++ ['\n']) =
      decode_status (("[01H]").data) ∧
    decode_settings ((("[01H]").data) ++ ['\n']) =
      decode_settings (("[01H]").data) :=
  ⟨by decide,
   (c10_trailing_newline_tolerated (("[01H]").data) (by decide)).1,
   (c10_trailing_newline_tolerated (("[01H]").data) (by decide)).2.2.2⟩

/-- C9 witness: with interval 90 and the last success 100 time units ago
a failing health check marks Disconnected and keeps the loop running;
with the last success 10 time units ago no status query is performed. -/
theorem c9_witness :
    health_check_iteration 100 0 90 true (.error .otherExc) =
      (true, false, true) ∧
    (health_check_iteration 10 0 90 true (.ok ())).1 = false :=
  ⟨(c9_health_check_skip_and_survive 100 0 90 true (.error .otherExc)
      .otherExc).2 (by norm_num),
   (c9_health_check_skip_and_survive 10 0 90 true (.ok ())
      .otherExc).1 (by norm_num)⟩

end Seymour

